import Mathlib

set_option linter.unusedVariables false

/-!
Verification of the calendar-conversion and parsing core of the vixcpp/time
C++ library (headers `Date.hpp`, `DateTime.hpp`, `Parse.hpp`, `Timestamp.hpp`).

The embedding mirrors the source:

* `Timestamp` is a signed 64-bit count of nanoseconds since the Unix epoch;
  it is modelled as an `Int` that is always the result of `wrap64`
  (two-complement wrap-around of the underlying `std::int64_t`).
* `Date` / `DateTime` store plain `int` fields; they are modelled as
  structures of unbounded `Int` (the C++ code never overflows the `int`
  fields themselves on the paths modelled here; where a claim quantifies over
  all field values the theorems state the needed bounds explicitly).
* Calendar conversion is delegated by the source to `std::chrono`
  (`year_month_day`, `sys_days`).  libstdc++ implements the conversions with
  the well-known Hinnant `days_from_civil` / `civil_from_days` algorithms,
  and stores `year` in a `short` and `month`/`day` in an `unsigned char`;
  the constructors truncate (`static_cast`), which `wrap16` / `wrap8u` model.
* C integer division in the algorithms truncates toward zero; the source
  arranges operands so that the result is the floor.  The definitions keep
  the literal conditional/truncating form (`Int.tdiv`), and lemmas rewrite it
  to Lean floor-like `/` (`Int.ediv`).
-/

namespace VixTime

/-- Two-complement truncation to 16 bits, modelling `static_cast<short>`:
libstdc++ stores `std::chrono::year` in a `short`. -/
def wrap16 (x : Int) : Int := (x + 32768) % 65536 - 32768

/-- Truncation to 8 bits, modelling
`static_cast<unsigned char>(static_cast<unsigned>(x))`: libstdc++ stores
`std::chrono::month` and `std::chrono::day` in an `unsigned char`. -/
def wrap8u (x : Int) : Int := x % 256

/-- Two-complement wrap-around of `std::int64_t` arithmetic, modelling the
nanosecond counts of `std::chrono::duration<int64_t, std::nano>`. -/
def wrap64 (x : Int) : Int :=
  (x + 9223372036854775808) % 18446744073709551616 - 9223372036854775808

/-- Leap-year rule of the proleptic Gregorian calendar, as in
`std::chrono::year::is_leap`: divisible by 4 and (not by 100 or by 400).
(The C `%` is truncating, but a divisibility test is flavour-independent.) -/
def isLeap (y : Int) : Prop := y % 4 = 0 ∧ (y % 100 ≠ 0 ∨ y % 400 = 0)

instance (y : Int) : Decidable (isLeap y) := by unfold isLeap; infer_instance

/-- Number of days of month `m` of year `y` (the `std::chrono`
`year_month_day_last` table). -/
def days_in_month (y m : Int) : Int :=
  if m = 2 then (if isLeap y then 29 else 28)
  else if m = 4 ∨ m = 6 ∨ m = 9 ∨ m = 11 then 30
  else 31

/-- Model of `std::chrono::year_month_day::ok()` on the (already truncated)
stored fields: the year is in the representable range of
`std::chrono::year`, the month in `[1,12]`, the day in
`[1, days_in_month]`. -/
def ymd_ok (y m d : Int) : Prop :=
  (-32767 ≤ y ∧ y ≤ 32767) ∧ (1 ≤ m ∧ m ≤ 12) ∧ (1 ≤ d ∧ d ≤ days_in_month y m)

instance (y m d : Int) : Decidable (ymd_ok y m d) := by
  unfold ymd_ok; infer_instance

/-- Validity of a (year, month, day) triple exactly as the specification words
it: month in `[1,12]` and day in `[1, days_in_month]`, with the leap-year
rule folded into `days_in_month`.  This is the claim-side predicate compared
against the code-side `ymd_ok`. -/
def valid_ymd_spec (y m d : Int) : Prop :=
  (1 ≤ m ∧ m ≤ 12) ∧ (1 ≤ d ∧ d ≤ days_in_month y m)

instance (y m d : Int) : Decidable (valid_ymd_spec y m d) := by
  unfold valid_ymd_spec; infer_instance

/-- The C expression `(y >= 0 ? y : y - 399) / 400` of the Hinnant
`days_from_civil` algorithm (`/` truncates toward zero in C). -/
def hdiv400 (y : Int) : Int := if 0 ≤ y then y.tdiv 400 else (y - 399).tdiv 400

/-- The C expression `(z >= 0 ? z : z - 146096) / 146097` of the Hinnant
`civil_from_days` algorithm. -/
def hdiv146097 (z : Int) : Int :=
  if 0 ≤ z then z.tdiv 146097 else (z - 146096).tdiv 146097

/-- The era-relative year used by `days_from_civil`: `y -= m <= 2`. -/
def shiftedYear (y m : Int) : Int := if m ≤ 2 then y - 1 else y

/-- March-based month index `[0,11]` from a civil month:
`m + (m > 2 ? -3 : 9)`. -/
def mpOfMonth (m : Int) : Int := if 2 < m then m - 3 else m + 9

/-- Day of the March-based year: `(153 * mp + 2) / 5 + d - 1`. -/
def doyOfMD (m d : Int) : Int := (153 * mpOfMonth m + 2) / 5 + d - 1

/-- Day count since 1970-01-01 of a civil (y, m, d) triple: the Hinnant
`days_from_civil` algorithm, which is how libstdc++ converts a
`std::chrono::year_month_day` to `sys_days` (used by
`Date::to_timestamp_utc` and `DateTime::to_timestamp_utc`). -/
def days_from_civil (y m d : Int) : Int :=
  let yy := shiftedYear y m
  let era := hdiv400 yy
  let yoe := yy - era * 400
  let doy := doyOfMD m d
  let doe := yoe * 365 + yoe / 4 - yoe / 100 + doy
  era * 146097 + doe - 719468

/-- Year of era `[0,399]` from a day of era `[0,146096]`:
`(doe - doe/1460 + doe/36524 - doe/146096) / 365`. -/
def yoeOfDoe (doe : Int) : Int :=
  (doe - doe / 1460 + doe / 36524 - doe / 146096) / 365

/-- March-based month index from a day of the March-based year:
`(5 * doy + 2) / 153`. -/
def mpOfDoy (doy : Int) : Int := (5 * doy + 2) / 153

/-- Day of month from a day of the March-based year:
`doy - (153 * mp + 2) / 5 + 1`. -/
def dayOfDoy (doy : Int) : Int := doy - (153 * mpOfDoy doy + 2) / 5 + 1

/-- Civil month from a March-based month index:
`mp + (mp < 10 ? 3 : -9)`. -/
def monthOfMp (mp : Int) : Int := if mp < 10 then mp + 3 else mp - 9

/-- Civil (y, m, d) triple of a day count since 1970-01-01: the Hinnant
`civil_from_days` algorithm, which is how libstdc++ converts `sys_days` to a
`std::chrono::year_month_day` (used by `DateTime::from_timestamp_utc` and
`Date::today`). -/
def civil_from_days (z : Int) : Int × Int × Int :=
  let zz := z + 719468
  let era := hdiv146097 zz
  let doe := zz - era * 146097
  let yoe := yoeOfDoe doe
  let y := yoe + era * 400
  let doy := doe - (365 * yoe + yoe / 4 - yoe / 100)
  let m := monthOfMp (mpOfDoy doy)
  (if m ≤ 2 then y + 1 else y, m, dayOfDoy doy)

/-! Arithmetic facts about the two C truncating divisions: on every input the
conditional form computes the floor, i.e. Lean `Int` division. -/

theorem hdiv400_eq (y : Int) : hdiv400 y = y / 400 := by
  unfold hdiv400
  split
  · next h => rw [Int.tdiv_eq_ediv h (by norm_num)]
  · next h =>
    have h2 : y - 399 = -(399 - y) := by ring
    rw [h2, Int.neg_tdiv, Int.tdiv_eq_ediv (by omega) (by norm_num)]
    omega

theorem hdiv146097_eq (z : Int) : hdiv146097 z = z / 146097 := by
  unfold hdiv146097
  split
  · next h => rw [Int.tdiv_eq_ediv h (by norm_num)]
  · next h =>
    have h2 : z - 146096 = -(146096 - z) := by ring
    rw [h2, Int.neg_tdiv, Int.tdiv_eq_ediv (by omega) (by norm_num)]
    omega

/-! The key arithmetic of the Hinnant algorithms, proved over the
decomposition of a day of era into century `b`, four-year cycle `a`,
year-of-cycle `r` and day-of-year `doy`.  A day of era determines
`(b, a, r, doy)` with `doy = 365` only at the very end of a cycle
(`r = 3`) that closes a leap year. -/

theorem doe_split_1460 (b a r doy : Int) (hb : 0 ≤ b ∧ b ≤ 3)
    (ha : 0 ≤ a ∧ a ≤ 24) (hr : 0 ≤ r ∧ r ≤ 3) (hd : 0 ≤ doy ∧ doy ≤ 365) :
    (36524 * b + 1461 * a + 365 * r + doy) / 1460 =
      25 * b + a + (if 1460 ≤ 24 * b + a + 365 * r + doy then 1 else 0) := by
  split <;> omega

theorem doe_split_36524 (b a r doy : Int) (hb : 0 ≤ b ∧ b ≤ 3)
    (ha : 0 ≤ a ∧ a ≤ 24) (hr : 0 ≤ r ∧ r ≤ 3) (hd : 0 ≤ doy ∧ doy ≤ 365) :
    (36524 * b + 1461 * a + 365 * r + doy) / 36524 =
      b + (if 1461 * a + 365 * r + doy = 36524 then 1 else 0) := by
  split <;> omega

theorem doe_split_146096 (b a r doy : Int) (hb : 0 ≤ b ∧ b ≤ 3)
    (ha : 0 ≤ a ∧ a ≤ 24) (hr : 0 ≤ r ∧ r ≤ 3) (hd : 0 ≤ doy ∧ doy ≤ 365) :
    (36524 * b + 1461 * a + 365 * r + doy) / 146096 =
      (if 36524 * b + 1461 * a + 365 * r + doy = 146096 then 1 else 0) := by
  split <;> omega

/-- Evaluation of the year-of-era recovery on a decomposed day of era. -/
theorem yoeOfDoe_eval (b a r doy : Int) (hb : 0 ≤ b ∧ b ≤ 3)
    (ha : 0 ≤ a ∧ a ≤ 24) (hr : 0 ≤ r ∧ r ≤ 3) (hd : 0 ≤ doy ∧ doy ≤ 365)
    (hside : doy = 365 → r = 3 ∧ (a = 24 → b = 3)) :
    yoeOfDoe (36524 * b + 1461 * a + 365 * r + doy) = 100 * b + 4 * a + r := by
  unfold yoeOfDoe
  rw [doe_split_1460 b a r doy hb ha hr hd, doe_split_36524 b a r doy hb ha hr hd,
    doe_split_146096 b a r doy hb ha hr hd]
  split <;> split <;> split <;> omega

/-- Every day of era decomposes into century, cycle, year and day of year. -/
theorem doe_decomp (doe : Int) (h0 : 0 ≤ doe) (h1 : doe ≤ 146096) :
    ∃ b a r doy : Int, (0 ≤ b ∧ b ≤ 3) ∧ (0 ≤ a ∧ a ≤ 24) ∧ (0 ≤ r ∧ r ≤ 3) ∧
      (0 ≤ doy ∧ doy ≤ 365) ∧ (doy = 365 → r = 3 ∧ (a = 24 → b = 3)) ∧
      doe = 36524 * b + 1461 * a + 365 * r + doy := by
  obtain ⟨b, hb, hb1, hrem⟩ : ∃ b, 0 ≤ b ∧ b ≤ 3 ∧
      (0 ≤ doe - 36524 * b ∧ doe - 36524 * b ≤ 36524 ∧
        (doe - 36524 * b = 36524 → b = 3)) :=
    ⟨doe / 36524 - doe / 146096, by omega, by omega, by omega⟩
  obtain ⟨a, ha, ha1, hrem2⟩ : ∃ a, 0 ≤ a ∧ a ≤ 24 ∧
      (0 ≤ doe - 36524 * b - 1461 * a ∧ doe - 36524 * b - 1461 * a ≤ 1460) :=
    ⟨(doe - 36524 * b) / 1461, by omega, by omega, by omega⟩
  obtain ⟨r, hr, hr1, hrem3⟩ : ∃ r, 0 ≤ r ∧ r ≤ 3 ∧
      (0 ≤ doe - 36524 * b - 1461 * a - 365 * r ∧
        doe - 36524 * b - 1461 * a - 365 * r ≤ 365 ∧
        (doe - 36524 * b - 1461 * a - 365 * r = 365 → r = 3)) :=
    ⟨(doe - 36524 * b - 1461 * a) / 365 - (doe - 36524 * b - 1461 * a) / 1460,
      by omega, by omega, by omega⟩
  exact ⟨b, a, r, doe - 36524 * b - 1461 * a - 365 * r,
    ⟨by omega, by omega⟩, ⟨by omega, by omega⟩, ⟨by omega, by omega⟩,
    ⟨by omega, by omega⟩, fun h365 => ⟨by omega, fun ha24 => by omega⟩, by omega⟩

/-- Evaluation of `civil_from_days` on a day count written as era plus
decomposed day of era. -/
theorem civil_from_days_eval (era b a r doy : Int) (hb : 0 ≤ b ∧ b ≤ 3)
    (ha : 0 ≤ a ∧ a ≤ 24) (hr : 0 ≤ r ∧ r ≤ 3) (hd : 0 ≤ doy ∧ doy ≤ 365)
    (hside : doy = 365 → r = 3 ∧ (a = 24 → b = 3)) :
    civil_from_days (era * 146097 + (36524 * b + 1461 * a + 365 * r + doy) - 719468) =
      ((if monthOfMp (mpOfDoy doy) ≤ 2 then 100 * b + 4 * a + r + era * 400 + 1
        else 100 * b + 4 * a + r + era * 400),
       monthOfMp (mpOfDoy doy), dayOfDoy doy) := by
  unfold civil_from_days
  have hzz : era * 146097 + (36524 * b + 1461 * a + 365 * r + doy) - 719468 + 719468 =
      (36524 * b + 1461 * a + 365 * r + doy) + era * 146097 := by ring
  rw [hzz]
  dsimp only
  rw [hdiv146097_eq]
  have hera : ((36524 * b + 1461 * a + 365 * r + doy) + era * 146097) / 146097 = era := by
    omega
  rw [hera]
  have hdoe : (36524 * b + 1461 * a + 365 * r + doy) + era * 146097 - era * 146097 =
      36524 * b + 1461 * a + 365 * r + doy := by ring
  rw [hdoe, yoeOfDoe_eval b a r doy hb ha hr hd hside]
  have h4 : (100 * b + 4 * a + r) / 4 = 25 * b + a := by omega
  have h100 : (100 * b + 4 * a + r) / 100 = b := by omega
  rw [h4, h100]
  have hdoy : 36524 * b + 1461 * a + 365 * r + doy -
      (365 * (100 * b + 4 * a + r) + (25 * b + a) - b) = doy := by ring
  rw [hdoy]


/-- Assembly step shared by the twelve month branches of the forward
roundtrip. -/
theorem branch_assemble (era b a r y d doy mp mv : Int)
    (hb : 0 ≤ b ∧ b ≤ 3) (ha : 0 ≤ a ∧ a ≤ 24) (hr : 0 ≤ r ∧ r ≤ 3)
    (hdoyb : 0 ≤ doy ∧ doy ≤ 365)
    (hside : doy = 365 → r = 3 ∧ (a = 24 → b = 3))
    (hmp : mpOfDoy doy = mp) (hmv : monthOfMp mp = mv)
    (hyv : (if mv ≤ 2 then 100 * b + 4 * a + r + era * 400 + 1
            else 100 * b + 4 * a + r + era * 400) = y)
    (hdv : dayOfDoy doy = d) :
    civil_from_days (era * 146097 + (36524 * b + 1461 * a + 365 * r + doy) - 719468)
      = (y, mv, d) := by
  rw [civil_from_days_eval era b a r doy hb ha hr hdoyb hside, hmp, hmv, hdv, hyv]

set_option maxHeartbeats 1600000 in
/-- Forward roundtrip of the Hinnant algorithms on every valid triple. -/
theorem civil_roundtrip_fwd (y m d : Int) (h : valid_ymd_spec y m d) :
    civil_from_days (days_from_civil y m d) = (y, m, d) := by
  obtain ⟨⟨hm1, hm12⟩, hd1, hdim⟩ := h
  unfold days_from_civil
  dsimp only
  rw [hdiv400_eq]
  set yy := shiftedYear y m with hyydef
  set era := yy / 400 with heradef
  set yoe := yy - era * 400 with hyoedef
  obtain ⟨b, a, r, hb0, hb3, ha0, ha24, hr0, hr3, hyoe_eq⟩ :
      ∃ b a r : Int, 0 ≤ b ∧ b ≤ 3 ∧ 0 ≤ a ∧ a ≤ 24 ∧ 0 ≤ r ∧ r ≤ 3 ∧
        yoe = 100 * b + 4 * a + r :=
    ⟨yoe / 100, (yoe - 100 * (yoe / 100)) / 4,
      yoe - 100 * (yoe / 100) - 4 * ((yoe - 100 * (yoe / 100)) / 4),
      by omega, by omega, by omega, by omega, by omega, by omega, by omega⟩
  set doy := doyOfMD m d with hdoydef
  have hdoe : era * 146097 + (yoe * 365 + yoe / 4 - yoe / 100 + doy) - 719468 =
      era * 146097 + (36524 * b + 1461 * a + 365 * r + doy) - 719468 := by
    omega
  rw [hdoe]
  interval_cases m
  · -- month 1
    have hdoyval : doy = d + 305 := by
      rw [hdoydef]; simp only [doyOfMD, mpOfMonth]; split <;> omega
    have hdimv : d ≤ 31 := by
      simpa [days_in_month] using hdim
    have hyyv : yy = y - 1 := by rw [hyydef]; simp [shiftedYear]
    refine branch_assemble era b a r y d doy 10 1 ⟨hb0, hb3⟩ ⟨ha0, ha24⟩
      ⟨hr0, hr3⟩ (by omega) (by omega) ?_ (by norm_num [monthOfMp]) ?_ ?_
    · simp only [mpOfDoy]; omega
    · norm_num; omega
    · simp only [dayOfDoy, mpOfDoy]; omega
  · -- month 2
    have hdoyval : doy = d + 336 := by
      rw [hdoydef]; simp only [doyOfMD, mpOfMonth]; split <;> omega
    have hdimv : d ≤ (if isLeap y then 29 else 28) := by
      simpa [days_in_month] using hdim
    have hd29 : d ≤ 29 := by
      by_cases hL : isLeap y
      · rw [if_pos hL] at hdimv; omega
      · rw [if_neg hL] at hdimv; omega
    have hyyv : yy = y - 1 := by rw [hyydef]; simp [shiftedYear]
    have hside : doy = 365 → r = 3 ∧ (a = 24 → b = 3) := by
      intro h365
      have hleap : isLeap y := by
        by_contra hnl
        rw [if_neg hnl] at hdimv
        omega
      have hleap2 : y % 4 = 0 ∧ (y % 100 ≠ 0 ∨ y % 400 = 0) := hleap
      obtain ⟨hl4, hl100⟩ := hleap2
      refine ⟨by omega, fun ha24eq => ?_⟩
      rcases hl100 with h100 | h400
      · exact absurd (by omega : y % 100 = 0) h100
      · omega
    refine branch_assemble era b a r y d doy 11 2 ⟨hb0, hb3⟩ ⟨ha0, ha24⟩
      ⟨hr0, hr3⟩ (by omega) hside ?_ (by norm_num [monthOfMp]) ?_ ?_
    · simp only [mpOfDoy]; omega
    · norm_num; omega
    · simp only [dayOfDoy, mpOfDoy]; omega
  · -- month 3
    have hdoyval : doy = d - 1 := by
      rw [hdoydef]; simp only [doyOfMD, mpOfMonth]; split <;> omega
    have hdimv : d ≤ 31 := by
      simpa [days_in_month] using hdim
    have hyyv : yy = y := by rw [hyydef]; simp [shiftedYear]
    refine branch_assemble era b a r y d doy 0 3 ⟨hb0, hb3⟩ ⟨ha0, ha24⟩
      ⟨hr0, hr3⟩ (by omega) (by omega) ?_ (by norm_num [monthOfMp]) ?_ ?_
    · simp only [mpOfDoy]; omega
    · norm_num; omega
    · simp only [dayOfDoy, mpOfDoy]; omega
  · -- month 4
    have hdoyval : doy = d + 30 := by
      rw [hdoydef]; simp only [doyOfMD, mpOfMonth]; split <;> omega
    have hdimv : d ≤ 30 := by
      simpa [days_in_month] using hdim
    have hyyv : yy = y := by rw [hyydef]; simp [shiftedYear]
    refine branch_assemble era b a r y d doy 1 4 ⟨hb0, hb3⟩ ⟨ha0, ha24⟩
      ⟨hr0, hr3⟩ (by omega) (by omega) ?_ (by norm_num [monthOfMp]) ?_ ?_
    · simp only [mpOfDoy]; omega
    · norm_num; omega
    · simp only [dayOfDoy, mpOfDoy]; omega
  · -- month 5
    have hdoyval : doy = d + 60 := by
      rw [hdoydef]; simp only [doyOfMD, mpOfMonth]; split <;> omega
    have hdimv : d ≤ 31 := by
      simpa [days_in_month] using hdim
    have hyyv : yy = y := by rw [hyydef]; simp [shiftedYear]
    refine branch_assemble era b a r y d doy 2 5 ⟨hb0, hb3⟩ ⟨ha0, ha24⟩
      ⟨hr0, hr3⟩ (by omega) (by omega) ?_ (by norm_num [monthOfMp]) ?_ ?_
    · simp only [mpOfDoy]; omega
    · norm_num; omega
    · simp only [dayOfDoy, mpOfDoy]; omega
  · -- month 6
    have hdoyval : doy = d + 91 := by
      rw [hdoydef]; simp only [doyOfMD, mpOfMonth]; split <;> omega
    have hdimv : d ≤ 30 := by
      simpa [days_in_month] using hdim
    have hyyv : yy = y := by rw [hyydef]; simp [shiftedYear]
    refine branch_assemble era b a r y d doy 3 6 ⟨hb0, hb3⟩ ⟨ha0, ha24⟩
      ⟨hr0, hr3⟩ (by omega) (by omega) ?_ (by norm_num [monthOfMp]) ?_ ?_
    · simp only [mpOfDoy]; omega
    · norm_num; omega
    · simp only [dayOfDoy, mpOfDoy]; omega
  · -- month 7
    have hdoyval : doy = d + 121 := by
      rw [hdoydef]; simp only [doyOfMD, mpOfMonth]; split <;> omega
    have hdimv : d ≤ 31 := by
      simpa [days_in_month] using hdim
    have hyyv : yy = y := by rw [hyydef]; simp [shiftedYear]
    refine branch_assemble era b a r y d doy 4 7 ⟨hb0, hb3⟩ ⟨ha0, ha24⟩
      ⟨hr0, hr3⟩ (by omega) (by omega) ?_ (by norm_num [monthOfMp]) ?_ ?_
    · simp only [mpOfDoy]; omega
    · norm_num; omega
    · simp only [dayOfDoy, mpOfDoy]; omega
  · -- month 8
    have hdoyval : doy = d + 152 := by
      rw [hdoydef]; simp only [doyOfMD, mpOfMonth]; split <;> omega
    have hdimv : d ≤ 31 := by
      simpa [days_in_month] using hdim
    have hyyv : yy = y := by rw [hyydef]; simp [shiftedYear]
    refine branch_assemble era b a r y d doy 5 8 ⟨hb0, hb3⟩ ⟨ha0, ha24⟩
      ⟨hr0, hr3⟩ (by omega) (by omega) ?_ (by norm_num [monthOfMp]) ?_ ?_
    · simp only [mpOfDoy]; omega
    · norm_num; omega
    · simp only [dayOfDoy, mpOfDoy]; omega
  · -- month 9
    have hdoyval : doy = d + 183 := by
      rw [hdoydef]; simp only [doyOfMD, mpOfMonth]; split <;> omega
    have hdimv : d ≤ 30 := by
      simpa [days_in_month] using hdim
    have hyyv : yy = y := by rw [hyydef]; simp [shiftedYear]
    refine branch_assemble era b a r y d doy 6 9 ⟨hb0, hb3⟩ ⟨ha0, ha24⟩
      ⟨hr0, hr3⟩ (by omega) (by omega) ?_ (by norm_num [monthOfMp]) ?_ ?_
    · simp only [mpOfDoy]; omega
    · norm_num; omega
    · simp only [dayOfDoy, mpOfDoy]; omega
  · -- month 10
    have hdoyval : doy = d + 213 := by
      rw [hdoydef]; simp only [doyOfMD, mpOfMonth]; split <;> omega
    have hdimv : d ≤ 31 := by
      simpa [days_in_month] using hdim
    have hyyv : yy = y := by rw [hyydef]; simp [shiftedYear]
    refine branch_assemble era b a r y d doy 7 10 ⟨hb0, hb3⟩ ⟨ha0, ha24⟩
      ⟨hr0, hr3⟩ (by omega) (by omega) ?_ (by norm_num [monthOfMp]) ?_ ?_
    · simp only [mpOfDoy]; omega
    · norm_num; omega
    · simp only [dayOfDoy, mpOfDoy]; omega
  · -- month 11
    have hdoyval : doy = d + 244 := by
      rw [hdoydef]; simp only [doyOfMD, mpOfMonth]; split <;> omega
    have hdimv : d ≤ 30 := by
      simpa [days_in_month] using hdim
    have hyyv : yy = y := by rw [hyydef]; simp [shiftedYear]
    refine branch_assemble era b a r y d doy 8 11 ⟨hb0, hb3⟩ ⟨ha0, ha24⟩
      ⟨hr0, hr3⟩ (by omega) (by omega) ?_ (by norm_num [monthOfMp]) ?_ ?_
    · simp only [mpOfDoy]; omega
    · norm_num; omega
    · simp only [dayOfDoy, mpOfDoy]; omega
  · -- month 12
    have hdoyval : doy = d + 274 := by
      rw [hdoydef]; simp only [doyOfMD, mpOfMonth]; split <;> omega
    have hdimv : d ≤ 31 := by
      simpa [days_in_month] using hdim
    have hyyv : yy = y := by rw [hyydef]; simp [shiftedYear]
    refine branch_assemble era b a r y d doy 9 12 ⟨hb0, hb3⟩ ⟨ha0, ha24⟩
      ⟨hr0, hr3⟩ (by omega) (by omega) ?_ (by norm_num [monthOfMp]) ?_ ?_
    · simp only [mpOfDoy]; omega
    · norm_num; omega
    · simp only [dayOfDoy, mpOfDoy]; omega


set_option maxHeartbeats 1600000 in
/-- Backward roundtrip of the Hinnant algorithms on every day count. -/
theorem civil_roundtrip_bwd (z : Int) :
    days_from_civil (civil_from_days z).1 (civil_from_days z).2.1
      (civil_from_days z).2.2 = z := by
  obtain ⟨era, hera_eq, hdoe0, hdoe1⟩ : ∃ era, era = (z + 719468) / 146097 ∧
      0 ≤ z + 719468 - era * 146097 ∧ z + 719468 - era * 146097 ≤ 146096 :=
    ⟨(z + 719468) / 146097, rfl, by omega, by omega⟩
  obtain ⟨b, a, r, doy, hb, ha, hr, hdoy, hside, hdoe_eq⟩ :=
    doe_decomp (z + 719468 - era * 146097) hdoe0 hdoe1
  obtain ⟨hb0, hb3⟩ := hb
  obtain ⟨ha0, ha24⟩ := ha
  obtain ⟨hr0, hr3⟩ := hr
  obtain ⟨hdoy0, hdoy365⟩ := hdoy
  have hz : z = era * 146097 + (36524 * b + 1461 * a + 365 * r + doy) - 719468 := by
    omega
  rw [hz, civil_from_days_eval era b a r doy ⟨hb0, hb3⟩ ⟨ha0, ha24⟩ ⟨hr0, hr3⟩
    ⟨hdoy0, hdoy365⟩ hside]
  dsimp only
  have hmpb : 0 ≤ mpOfDoy doy ∧ mpOfDoy doy ≤ 11 := by
    unfold mpOfDoy; constructor <;> omega
  by_cases hmp10 : mpOfDoy doy < 10
  · have hmv : monthOfMp (mpOfDoy doy) = mpOfDoy doy + 3 := by
      unfold monthOfMp; rw [if_pos hmp10]
    rw [hmv, if_neg (by omega : ¬ mpOfDoy doy + 3 ≤ 2)]
    unfold days_from_civil
    dsimp only
    rw [hdiv400_eq]
    have hsy : shiftedYear (100 * b + 4 * a + r + era * 400) (mpOfDoy doy + 3) =
        100 * b + 4 * a + r + era * 400 := by
      unfold shiftedYear; rw [if_neg (by omega)]
    rw [hsy]
    have hera2 : (100 * b + 4 * a + r + era * 400) / 400 = era := by omega
    rw [hera2]
    unfold doyOfMD mpOfMonth dayOfDoy
    rw [if_pos (by omega : (2:Int) < mpOfDoy doy + 3)]
    have hcancel : mpOfDoy doy + 3 - 3 = mpOfDoy doy := by ring
    rw [hcancel]
    unfold mpOfDoy
    clear hera_eq hdoe0 hdoe1 hz hdoe_eq hside hmv hsy hera2 hmpb hcancel
    omega
  · have hmv : monthOfMp (mpOfDoy doy) = mpOfDoy doy - 9 := by
      unfold monthOfMp; rw [if_neg hmp10]
    rw [hmv, if_pos (by omega : mpOfDoy doy - 9 ≤ 2)]
    unfold days_from_civil
    dsimp only
    rw [hdiv400_eq]
    have hsy : shiftedYear (100 * b + 4 * a + r + era * 400 + 1) (mpOfDoy doy - 9) =
        100 * b + 4 * a + r + era * 400 := by
      unfold shiftedYear; rw [if_pos (by omega)]; ring
    rw [hsy]
    have hera2 : (100 * b + 4 * a + r + era * 400) / 400 = era := by omega
    rw [hera2]
    unfold doyOfMD mpOfMonth dayOfDoy
    rw [if_neg (by omega : ¬ (2:Int) < mpOfDoy doy - 9)]
    have hcancel : mpOfDoy doy - 9 + 9 = mpOfDoy doy := by ring
    rw [hcancel]
    unfold mpOfDoy
    clear hera_eq hdoe0 hdoe1 hz hdoe_eq hside hmv hsy hera2 hmpb hcancel
    omega

set_option maxHeartbeats 1600000 in
/-- `civil_from_days` always produces a valid civil triple. -/
theorem civil_from_days_valid (z : Int) :
    valid_ymd_spec (civil_from_days z).1 (civil_from_days z).2.1
      (civil_from_days z).2.2 := by
  obtain ⟨era, hera_eq, hdoe0, hdoe1⟩ : ∃ era, era = (z + 719468) / 146097 ∧
      0 ≤ z + 719468 - era * 146097 ∧ z + 719468 - era * 146097 ≤ 146096 :=
    ⟨(z + 719468) / 146097, rfl, by omega, by omega⟩
  obtain ⟨b, a, r, doy, hb, ha, hr, hdoy, hside, hdoe_eq⟩ :=
    doe_decomp (z + 719468 - era * 146097) hdoe0 hdoe1
  obtain ⟨hb0, hb3⟩ := hb
  obtain ⟨ha0, ha24⟩ := ha
  obtain ⟨hr0, hr3⟩ := hr
  obtain ⟨hdoy0, hdoy365⟩ := hdoy
  have hz : z = era * 146097 + (36524 * b + 1461 * a + 365 * r + doy) - 719468 := by
    omega
  rw [hz, civil_from_days_eval era b a r doy ⟨hb0, hb3⟩ ⟨ha0, ha24⟩ ⟨hr0, hr3⟩
    ⟨hdoy0, hdoy365⟩ hside]
  dsimp only
  obtain ⟨mp, hmpdef, hmp0, hmp11⟩ : ∃ mp, mpOfDoy doy = mp ∧ 0 ≤ mp ∧ mp ≤ 11 := by
    refine ⟨mpOfDoy doy, rfl, ?_, ?_⟩ <;> unfold mpOfDoy <;> omega
  have hdoylo : 153 * mp ≤ 5 * doy + 2 := by rw [← hmpdef]; unfold mpOfDoy; omega
  have hdoyhi : 5 * doy + 2 < 153 * mp + 153 := by rw [← hmpdef]; unfold mpOfDoy; omega
  rw [hmpdef]
  unfold valid_ymd_spec days_in_month monthOfMp dayOfDoy
  rw [hmpdef]
  interval_cases mp
  · -- mp 0, March
    norm_num
    omega
  · norm_num
    omega
  · norm_num
    omega
  · norm_num
    omega
  · norm_num
    omega
  · norm_num
    omega
  · norm_num
    omega
  · norm_num
    omega
  · norm_num
    omega
  · norm_num
    omega
  · -- mp 10, January
    norm_num
    omega
  · -- mp 11, February
    norm_num
    by_cases hL : isLeap (100 * b + 4 * a + r + era * 400 + 1)
    · rw [if_pos hL]
      omega
    · rw [if_neg hL]
      have h364 : doy ≤ 364 := by
        by_contra hgt
        have h365 : doy = 365 := by omega
        obtain ⟨hrr3, hab⟩ := hside h365
        refine hL ⟨by omega, ?_⟩
        by_cases hae : a = 24
        · exact Or.inr (by omega)
        · exact Or.inl (by omega)
      omega

/-! Wrap-around identities on the ranges where no truncation happens. -/

theorem wrap16_id (x : Int) (h1 : -32768 ≤ x) (h2 : x ≤ 32767) : wrap16 x = x := by
  unfold wrap16; omega

theorem wrap8u_id (x : Int) (h1 : 0 ≤ x) (h2 : x ≤ 255) : wrap8u x = x := by
  unfold wrap8u; omega

theorem wrap64_id (x : Int) (h1 : -9223372036854775808 ≤ x)
    (h2 : x ≤ 9223372036854775807) : wrap64 x = x := by
  unfold wrap64; omega

/-- On field values that the `std::chrono` narrowing casts keep unchanged,
the `ok()` check agrees with the specification formula. -/
theorem ymd_ok_wraps_iff (y m d : Int) (h1 : -32767 ≤ y) (h2 : y ≤ 32767)
    (h3 : 0 ≤ m) (h4 : m ≤ 255) (h5 : 0 ≤ d) (h6 : d ≤ 255) :
    ymd_ok (wrap16 y) (wrap8u m) (wrap8u d) ↔ valid_ymd_spec y m d := by
  rw [wrap16_id y (by omega) h2, wrap8u_id m h3 h4, wrap8u_id d h5 h6]
  unfold ymd_ok valid_ymd_spec
  constructor
  · rintro ⟨hy, hm, hd⟩
    exact ⟨hm, hd⟩
  · rintro ⟨hm, hd⟩
    exact ⟨⟨h1, h2⟩, hm, hd⟩

/-- Model of `vix::time::Date`: three stored `int` fields
(`year_`, `month_`, `day_`), no validation at construction. -/
structure Date where
  year : Int
  month : Int
  day : Int
deriving DecidableEq

/-- Model of `vix::time::DateTime`: seven stored fields
(`year_` ... `second_` are `int`, `nanosecond_` is `std::int32_t`),
no validation at construction. -/
structure DateTime where
  year : Int
  month : Int
  day : Int
  hour : Int
  minute : Int
  second : Int
  nanosecond : Int
deriving DecidableEq

/-- The default-constructed `DateTime()`: 1970-01-01T00:00:00. -/
def DateTime.epochDefault : DateTime := ⟨1970, 1, 1, 0, 0, 0, 0⟩

/-- The default-constructed `Date()`: 1970-01-01. -/
def Date.epochDefault : Date := ⟨1970, 1, 1⟩

/-- `Date::is_valid`: builds a `std::chrono::year_month_day` from the stored
fields (narrowing casts included) and asks `ok()`. -/
def Date.is_valid (x : Date) : Prop :=
  ymd_ok (wrap16 x.year) (wrap8u x.month) (wrap8u x.day)

instance (x : Date) : Decidable x.is_valid := by
  unfold Date.is_valid; infer_instance

/-- `Date::to_timestamp_utc`: a `Timestamp` is its `int64_t` nanosecond
count, so the result type is `Int` (always in the `wrap64` range).  If the
`year_month_day` is not `ok()`, the zero `Timestamp` is returned; otherwise
`sys_days` (the epoch-day count) is cast to nanoseconds, which multiplies by
86400e9 in `int64_t` arithmetic, hence the `wrap64`. -/
def Date.to_timestamp_utc (x : Date) : Int :=
  if ymd_ok (wrap16 x.year) (wrap8u x.month) (wrap8u x.day) then
    wrap64 (days_from_civil (wrap16 x.year) (wrap8u x.month) (wrap8u x.day) *
      86400000000000)
  else 0

/-- `DateTime::to_timestamp_utc`: as for `Date`, plus the hour, minute,
second and nanosecond contributions, all summed in `int64_t` nanoseconds
(the stored fields themselves are not range-checked here). -/
def DateTime.to_timestamp_utc (x : DateTime) : Int :=
  if ymd_ok (wrap16 x.year) (wrap8u x.month) (wrap8u x.day) then
    wrap64 (days_from_civil (wrap16 x.year) (wrap8u x.month) (wrap8u x.day) *
        86400000000000 +
      x.hour * 3600000000000 + x.minute * 60000000000 +
      x.second * 1000000000 + x.nanosecond)
  else 0

/-- `DateTime::from_timestamp_utc`: `floor<days>` of the time point (floor
division of the nanosecond count), `year_month_day` of that day
(`civil_from_days`), and `hh_mm_ss` of the non-negative remainder
(successive truncating division into 3600 s, 60 s, 1 s buckets; since the
remainder is non-negative the `%`/`/` forms below coincide with the
subtraction cascade of `hh_mm_ss`). -/
def DateTime.from_timestamp_utc (ts : Int) : DateTime :=
  let day := ts / 86400000000000
  let rem := ts % 86400000000000
  let c := civil_from_days day
  ⟨c.1, c.2.1, c.2.2,
    rem / 3600000000000,
    rem % 3600000000000 / 60000000000,
    rem % 60000000000 / 1000000000,
    rem % 1000000000⟩

/-- `DateTime::operator==`: field-wise equality of all seven fields. -/
def DateTime.eqOp (x w : DateTime) : Prop :=
  x.year = w.year ∧ x.month = w.month ∧ x.day = w.day ∧ x.hour = w.hour ∧
  x.minute = w.minute ∧ x.second = w.second ∧ x.nanosecond = w.nanosecond

instance (x w : DateTime) : Decidable (x.eqOp w) := by
  unfold DateTime.eqOp; infer_instance

/-- `DateTime::operator<`: compares the two derived timestamps. -/
def DateTime.ltOp (x w : DateTime) : Prop :=
  x.to_timestamp_utc < w.to_timestamp_utc

instance (x w : DateTime) : Decidable (x.ltOp w) := by
  unfold DateTime.ltOp; infer_instance

/-- C1: for every valid (y, m, d) with 1 ≤ y ≤ 9999, converting to an
epoch-day count (`days_from_civil`, the direction used by
`Date::to_timestamp_utc`) and back (`civil_from_days`, the direction used by
`DateTime::from_timestamp_utc`) returns the original triple; for every day
count in ±3,000,000 the converse composition is the identity; and day count
0 corresponds exactly to 1970-01-01. -/
theorem claim_C1 :
    (∀ y m d : Int, 1 ≤ y → y ≤ 9999 → valid_ymd_spec y m d →
      civil_from_days (days_from_civil y m d) = (y, m, d)) ∧
    (∀ z : Int, -3000000 ≤ z → z ≤ 3000000 →
      days_from_civil (civil_from_days z).1 (civil_from_days z).2.1
        (civil_from_days z).2.2 = z) ∧
    days_from_civil 1970 1 1 = 0 ∧ civil_from_days 0 = (1970, 1, 1) :=
  ⟨fun y m d _ _ hv => civil_roundtrip_fwd y m d hv,
    fun z _ _ => civil_roundtrip_bwd z, by decide, by decide⟩

theorem claim_C1_witness :
    civil_from_days (days_from_civil 2026 2 7) = (2026, 2, 7) ∧
    days_from_civil (civil_from_days 12345).1 (civil_from_days 12345).2.1
      (civil_from_days 12345).2.2 = 12345 :=
  ⟨claim_C1.1 2026 2 7 (by norm_num) (by norm_num) (by decide),
    claim_C1.2.1 12345 (by norm_num) (by norm_num)⟩

/-- C2 counterexample: the claim quantifies over every integer triple, but
`Date::is_valid` narrows the stored fields through `std::chrono` storage
(month into an `unsigned char`), so month 258 is truncated to 2 and
2024-258-10 is reported valid although the specification formula rejects
it. -/
theorem claim_C2_counterexample :
    (Date.mk 2024 258 10).is_valid ∧ (valid_ymd_spec 2024 258 10 ↔ False) := by
  exact ⟨by decide, by decide⟩

/-- C2 (amended): on every triple whose fields survive the `std::chrono`
narrowing unchanged (year in [-32767, 32767], month and day in [0, 255]),
`Date::is_valid` returns true exactly when month is in [1,12] and day is in
[1, days_in_month(y, m)] under the stated leap-year rule; in particular
2024-02-29 and 2000-02-29 are valid while 2023-02-29 and 1900-02-29 are
not. -/
theorem claim_C2 :
    (∀ y m d : Int, -32767 ≤ y → y ≤ 32767 → 0 ≤ m → m ≤ 255 → 0 ≤ d →
      d ≤ 255 → ((Date.mk y m d).is_valid ↔ valid_ymd_spec y m d)) ∧
    (Date.mk 2024 2 29).is_valid ∧ ((Date.mk 2023 2 29).is_valid ↔ False) ∧
    (Date.mk 2000 2 29).is_valid ∧ ((Date.mk 1900 2 29).is_valid ↔ False) := by
  refine ⟨fun y m d h1 h2 h3 h4 h5 h6 => ?_, by decide, by decide, by decide,
    by decide⟩
  exact ymd_ok_wraps_iff y m d h1 h2 h3 h4 h5 h6

theorem claim_C2_witness :
    (Date.mk 2024 2 29).is_valid ↔ valid_ymd_spec 2024 2 29 :=
  claim_C2.1 2024 2 29 (by norm_num) (by norm_num) (by norm_num) (by norm_num)
    (by norm_num) (by norm_num)

/-- C3 counterexample: the claim asks that every `Date` whose fields are not
a valid calendar day convert to the zero `Timestamp`, but the fields are
narrowed by the `std::chrono` storage first: 2023-260-5 is not a valid
calendar triple, yet month 260 truncates to 4 and the conversion returns
the nonzero timestamp of 2023-04-05. -/
theorem claim_C3_counterexample :
    (valid_ymd_spec 2023 260 5 ↔ False) ∧
    ((Date.mk 2023 260 5).to_timestamp_utc = 0 ↔ False) := by
  exact ⟨by decide, by decide⟩

/-- C3 (amended): for fields that survive the `std::chrono` narrowing
unchanged, an invalid (y, m, d) makes `to_timestamp_utc` return the zero
`Timestamp` for both `Date` and `DateTime`; and a valid `Date` whose
epoch-day nanosecond product fits `int64_t` converts to exactly
epoch-day × 86400 s in nanoseconds (midnight UTC). -/
theorem claim_C3 (x : Date) (w : DateTime)
    (hx1 : -32767 ≤ x.year) (hx2 : x.year ≤ 32767) (hx3 : 0 ≤ x.month)
    (hx4 : x.month ≤ 255) (hx5 : 0 ≤ x.day) (hx6 : x.day ≤ 255)
    (hw1 : -32767 ≤ w.year) (hw2 : w.year ≤ 32767) (hw3 : 0 ≤ w.month)
    (hw4 : w.month ≤ 255) (hw5 : 0 ≤ w.day) (hw6 : w.day ≤ 255) :
    (¬ valid_ymd_spec x.year x.month x.day → x.to_timestamp_utc = 0) ∧
    (¬ valid_ymd_spec w.year w.month w.day → w.to_timestamp_utc = 0) ∧
    (valid_ymd_spec x.year x.month x.day →
      -9223372036854775808 ≤ days_from_civil x.year x.month x.day *
        86400000000000 →
      days_from_civil x.year x.month x.day * 86400000000000 ≤
        9223372036854775807 →
      x.to_timestamp_utc =
        days_from_civil x.year x.month x.day * 86400000000000) := by
  refine ⟨fun hnv => ?_, fun hnv => ?_, fun hv hf1 hf2 => ?_⟩
  · unfold Date.to_timestamp_utc
    rw [if_neg]
    rw [ymd_ok_wraps_iff x.year x.month x.day hx1 hx2 hx3 hx4 hx5 hx6]
    exact hnv
  · unfold DateTime.to_timestamp_utc
    rw [if_neg]
    rw [ymd_ok_wraps_iff w.year w.month w.day hw1 hw2 hw3 hw4 hw5 hw6]
    exact hnv
  · unfold Date.to_timestamp_utc
    rw [if_pos ((ymd_ok_wraps_iff x.year x.month x.day hx1 hx2 hx3 hx4 hx5
      hx6).mpr hv)]
    rw [wrap16_id x.year (by omega) hx2, wrap8u_id x.month hx3 hx4,
      wrap8u_id x.day hx5 hx6]
    exact wrap64_id _ hf1 hf2

theorem claim_C3_witness :
    (Date.mk 2026 13 1).to_timestamp_utc = 0 ∧
    (DateTime.mk 2026 2 30 0 0 0 0).to_timestamp_utc = 0 ∧
    (Date.mk 2026 2 7).to_timestamp_utc =
      days_from_civil 2026 2 7 * 86400000000000 := by
  have h1 := claim_C3 (Date.mk 2026 13 1) (DateTime.mk 2026 2 30 0 0 0 0)
    (by norm_num) (by norm_num) (by norm_num) (by norm_num) (by norm_num)
    (by norm_num) (by norm_num) (by norm_num) (by norm_num) (by norm_num)
    (by norm_num) (by norm_num)
  have h2 := claim_C3 (Date.mk 2026 2 7) (DateTime.mk 2026 2 30 0 0 0 0)
    (by norm_num) (by norm_num) (by norm_num) (by norm_num) (by norm_num)
    (by norm_num) (by norm_num) (by norm_num) (by norm_num) (by norm_num)
    (by norm_num) (by norm_num)
  exact ⟨h1.1 (by decide), h1.2.1 (by decide),
    h2.2.2 (by decide) (by decide) (by decide)⟩

/-- C7: `DateTime::operator==` holds exactly when all seven stored fields
agree (equivalently, when the two values are equal as structures), while
`DateTime::operator<` compares the derived timestamps; consequently the two
invalid values 2026-02-30T00:00:00 and 2025-13-01T05:06:07.8 are unequal
under `==` yet neither orders below the other, both converting to the epoch
timestamp. -/
theorem claim_C7 :
    (∀ x w : DateTime, x.eqOp w ↔ x = w) ∧
    (∀ x w : DateTime, x.ltOp w ↔ x.to_timestamp_utc < w.to_timestamp_utc) ∧
    ((DateTime.mk 2026 2 30 0 0 0 0).eqOp (DateTime.mk 2025 13 1 5 6 7 8) ↔
      False) ∧
    ((DateTime.mk 2026 2 30 0 0 0 0).ltOp (DateTime.mk 2025 13 1 5 6 7 8) ↔
      False) ∧
    ((DateTime.mk 2025 13 1 5 6 7 8).ltOp (DateTime.mk 2026 2 30 0 0 0 0) ↔
      False) ∧
    (DateTime.mk 2026 2 30 0 0 0 0).to_timestamp_utc = 0 ∧
    (DateTime.mk 2025 13 1 5 6 7 8).to_timestamp_utc = 0 := by
  refine ⟨fun x w => ?_, fun x w => Iff.rfl, by decide, by decide, by decide,
    by decide, by decide⟩
  constructor
  · rintro ⟨h1, h2, h3, h4, h5, h6, h7⟩
    cases x
    cases w
    simp_all
  · rintro rfl
    exact ⟨rfl, rfl, rfl, rfl, rfl, rfl, rfl⟩

/-- C10: for every signed 64-bit nanosecond count,
`DateTime::from_timestamp_utc` produces canonical fields: a valid calendar
triple, hour in [0,23], minute in [0,59], second in [0,59] (never 60) and
nanosecond in [0,999999999], also for negative (pre-epoch) inputs, because
the day component is floored toward negative infinity before the remainder
is decomposed. -/
theorem claim_C10 (ts : Int) (h1 : -9223372036854775808 ≤ ts)
    (h2 : ts ≤ 9223372036854775807) :
    valid_ymd_spec (DateTime.from_timestamp_utc ts).year
      (DateTime.from_timestamp_utc ts).month
      (DateTime.from_timestamp_utc ts).day ∧
    (0 ≤ (DateTime.from_timestamp_utc ts).hour ∧
      (DateTime.from_timestamp_utc ts).hour ≤ 23) ∧
    (0 ≤ (DateTime.from_timestamp_utc ts).minute ∧
      (DateTime.from_timestamp_utc ts).minute ≤ 59) ∧
    (0 ≤ (DateTime.from_timestamp_utc ts).second ∧
      (DateTime.from_timestamp_utc ts).second ≤ 59) ∧
    (0 ≤ (DateTime.from_timestamp_utc ts).nanosecond ∧
      (DateTime.from_timestamp_utc ts).nanosecond ≤ 999999999) := by
  unfold DateTime.from_timestamp_utc
  dsimp only
  refine ⟨civil_from_days_valid (ts / 86400000000000), ?_, ?_, ?_, ?_⟩ <;>
    constructor <;> omega

theorem claim_C10_witness :
    valid_ymd_spec (DateTime.from_timestamp_utc (-1)).year
      (DateTime.from_timestamp_utc (-1)).month
      (DateTime.from_timestamp_utc (-1)).day ∧
    (0 ≤ (DateTime.from_timestamp_utc (-1)).hour ∧
      (DateTime.from_timestamp_utc (-1)).hour ≤ 23) ∧
    (0 ≤ (DateTime.from_timestamp_utc (-1)).minute ∧
      (DateTime.from_timestamp_utc (-1)).minute ≤ 59) ∧
    (0 ≤ (DateTime.from_timestamp_utc (-1)).second ∧
      (DateTime.from_timestamp_utc (-1)).second ≤ 59) ∧
    (0 ≤ (DateTime.from_timestamp_utc (-1)).nanosecond ∧
      (DateTime.from_timestamp_utc (-1)).nanosecond ≤ 999999999) :=
  claim_C10 (-1) (by norm_num) (by norm_num)

/-! String layer: the fixed-format scanner `parse_ymd` of `Parse.hpp`, the
iostream-based rendering of `to_string` / `to_string_utc`, and the
`std::istringstream` extraction model used by `DateTime::parse`. -/

/-- The digit lambda of `parse_ymd`: the value of an ASCII digit, `-1`
otherwise. -/
def cDigit (c : Char) : Int :=
  if '0' ≤ c ∧ c ≤ '9' then (c.toNat : Int) - 48 else -1

/-- `vix::time::parse::parse_ymd` with its three out-parameters threaded
through: on failure the function returns without touching them (the C++
loops return early on the first bad digit; grouping the digit tests per
field leaves the result unchanged). -/
def parse_ymd (s : String) (year month day : Int) : Bool × Int × Int × Int :=
  let cs := s.data
  if cs.length ≠ 10 then (false, year, month, day)
  else if cs.getD 4 ' ' ≠ '-' ∨ cs.getD 7 ' ' ≠ '-' then (false, year, month, day)
  else if cDigit (cs.getD 0 ' ') < 0 ∨ cDigit (cs.getD 1 ' ') < 0 ∨
      cDigit (cs.getD 2 ' ') < 0 ∨ cDigit (cs.getD 3 ' ') < 0 then
    (false, year, month, day)
  else if cDigit (cs.getD 5 ' ') < 0 ∨ cDigit (cs.getD 6 ' ') < 0 then
    (false, year, month, day)
  else if cDigit (cs.getD 8 ' ') < 0 ∨ cDigit (cs.getD 9 ' ') < 0 then
    (false, year, month, day)
  else (true,
    ((cDigit (cs.getD 0 ' ') * 10 + cDigit (cs.getD 1 ' ')) * 10 +
        cDigit (cs.getD 2 ' ')) * 10 + cDigit (cs.getD 3 ' '),
    cDigit (cs.getD 5 ' ') * 10 + cDigit (cs.getD 6 ' '),
    cDigit (cs.getD 8 ' ') * 10 + cDigit (cs.getD 9 ' '))

/-- `Date::parse`: zero-initialized out-parameters, default `Date` on
failure, the parsed fields otherwise (no calendar validation). -/
def Date.parse (s : String) : Date :=
  let r := parse_ymd s 0 0 0
  if r.1 then ⟨r.2.1, r.2.2.1, r.2.2.2⟩ else Date.epochDefault

/-- Decimal digits of a natural number, most significant first; the fuel
argument only bounds the recursion depth (`n + 1` always suffices, see
`natDigitsAux_fuel`). -/
def natDigitsAux : Nat → Nat → List Char
  | 0, _ => []
  | fuel + 1, n =>
    if n < 10 then [Nat.digitChar n]
    else natDigitsAux fuel (n / 10) ++ [Nat.digitChar (n % 10)]

/-- Decimal rendering of a natural number (what `operator<<` prints). -/
def natDecimal (n : Nat) : List Char := natDigitsAux (n + 1) n

/-- Decimal rendering of an `int` as `operator<<` prints it. -/
def intDecimal (i : Int) : List Char :=
  if i < 0 then '-' :: natDecimal i.natAbs else natDecimal i.toNat

/-- `std::setfill` of 0 with `std::setw w`: right adjustment pads on the
left, before the sign. -/
def padNum (w : Nat) (i : Int) : List Char :=
  List.replicate (w - (intDecimal i).length) '0' ++ intDecimal i

/-- `Date::to_string`: zero-padded `YYYY-MM-DD` from the stored fields,
without validation. -/
def Date.to_string (x : Date) : String :=
  ⟨padNum 4 x.year ++ ['-'] ++ padNum 2 x.month ++ ['-'] ++ padNum 2 x.day⟩

/-- `DateTime::to_string_utc`: zero-padded `YYYY-MM-DDTHH:MM:SS`, a
9-digit fractional part only when the stored nanosecond is nonzero, and a
trailing Z. -/
def DateTime.to_string_utc (x : DateTime) : String :=
  ⟨padNum 4 x.year ++ ['-'] ++ padNum 2 x.month ++ ['-'] ++ padNum 2 x.day ++
    ['T'] ++ padNum 2 x.hour ++ [':'] ++ padNum 2 x.minute ++ [':'] ++
    padNum 2 x.second ++
    (if x.nanosecond ≠ 0 then '.' :: padNum 9 x.nanosecond else []) ++ ['Z']⟩

/-- Whitespace of the default C locale, as skipped by formatted stream
extraction (`std::ws`). -/
def isStreamSpace (c : Char) : Bool :=
  c == ' ' || c == '\t' || c == '\n' || c == '\x0b' || c == '\x0c' || c == '\r'

/-- Value of a most-significant-first digit string. -/
def digitsVal (ds : List Char) : Nat :=
  ds.foldl (fun a c => a * 10 + (c.toNat - 48)) 0

/-- Digit phase of formatted `int` extraction: one or more digits; the
`num_get` overflow handling (clamp plus `failbit`) is modelled as failure,
since the stream state makes the whole parse fail anyway. -/
def readIntDigits (cs : List Char) (neg : Bool) : Option (Int × List Char) :=
  let ds := cs.takeWhile Char.isDigit
  let rest := cs.dropWhile Char.isDigit
  if ds.isEmpty then none
  else
    let v : Int := if neg then -(digitsVal ds : Int) else (digitsVal ds : Int)
    if v < -2147483648 ∨ 2147483647 < v then none else some (v, rest)

/-- Formatted extraction `iss >> n` for `int n`: skip whitespace, optional
sign, one or more digits; `none` models `failbit` (no digit, or overflow),
after which every later extraction fails, reproduced by `Option`
chaining. -/
def readInt (cs : List Char) : Option (Int × List Char) :=
  match cs.dropWhile isStreamSpace with
  | '-' :: r => readIntDigits r true
  | '+' :: r => readIntDigits r false
  | r => readIntDigits r false

/-- Formatted extraction `iss >> c` for `char c`: skip whitespace, then one
character; `none` models `failbit` at end of input.  Because whitespace is
skipped, the extracted character can never be a space. -/
def readChar (cs : List Char) : Option (Char × List Char) :=
  match cs.dropWhile isStreamSpace with
  | [] => none
  | c :: r => some (c, r)

/-- The fractional-digits loop of `DateTime::parse`: consume digits, keep
the first nine in `frac`, count all of them in the second component. -/
def fracLoop : List Char → Int → Nat → Int × Nat × List Char
  | [], frac, n => (frac, n, [])
  | c :: r, frac, n =>
    if c.isDigit then
      if n < 9 then fracLoop r (frac * 10 + ((c.toNat : Int) - 48)) (n + 1)
      else fracLoop r frac (n + 1)
    else (frac, n, c :: r)

/-- The normalization while-loop, fuelled: the loop multiplies by ten
while `0 < frac_digits < 9`, so nine iterations always suffice. -/
def fracPadGo : Nat → Int → Nat → Int
  | 0, frac, _ => frac
  | fuel + 1, frac, n =>
    if 0 < n ∧ n < 9 then fracPadGo fuel (frac * 10) (n + 1) else frac

/-- Normalize a fractional value of `n` digits to nanoseconds. -/
def fracPad (frac : Int) (n : Nat) : Int := fracPadGo 9 frac n

/-- Tail of `DateTime::parse` after the eleven extractions and the
punctuation test: optional `.`-introduced fraction, optional trailing Z
(consumed without effect on the result), normalization, and the range
checks, in source order. -/
def DateTime.parseTail (rest : List Char) (y mo d h mi se : Int) : DateTime :=
  let fr := match rest with
    | '.' :: r => fracLoop r 0 0
    | _ => (0, 0, rest)
  let frac := fracPad fr.1 fr.2.1
  if mo < 1 ∨ 12 < mo ∨ d < 1 ∨ 31 < d ∨ h < 0 ∨ 23 < h ∨ mi < 0 ∨ 59 < mi ∨
      se < 0 ∨ 60 < se then DateTime.epochDefault
  else if frac < 0 ∨ 999999999 < frac then DateTime.epochDefault
  else ⟨y, mo, d, h, mi, se, frac⟩

/-- `DateTime::parse`: eleven formatted extractions
`y c1 mo c2 d sep h c3 mi c4 se` from an `std::istringstream` over the
input, the punctuation test, then `parseTail`. -/
def DateTime.parse (s : String) : DateTime :=
  match (do
    let p1 ← readInt s.data
    let p2 ← readChar p1.2
    let p3 ← readInt p2.2
    let p4 ← readChar p3.2
    let p5 ← readInt p4.2
    let p6 ← readChar p5.2
    let p7 ← readInt p6.2
    let p8 ← readChar p7.2
    let p9 ← readInt p8.2
    let p10 ← readChar p9.2
    let p11 ← readInt p10.2
    pure (p1.1, p2.1, p3.1, p4.1, p5.1, p6.1, p7.1, p8.1, p9.1, p10.1,
      p11.1, p11.2) : Option _) with
  | none => DateTime.epochDefault
  | some (y, c1, mo, c2, d, sep, h, c3, mi, c4, se, rest) =>
    if c1 ≠ '-' ∨ c2 ≠ '-' ∨ c3 ≠ ':' ∨ c4 ≠ ':' ∨ (sep ≠ 'T' ∧ sep ≠ ' ') then
      DateTime.epochDefault
    else DateTime.parseTail rest y mo d h mi se

/-- C4: evaluation of `DateTime::parse` at the inputs that separate the
claim from the code.  The header documents `YYYY-MM-DD HH:MM:SS` as a
supported form and the code tests `sep_date_time != ' '`, but formatted
char extraction skips whitespace, so the separator can never be read as a
space: the space form collapses to the default value while the same text
with T parses; and the stream extractions are not fixed-width, so the
non-`parse_ymd`-shaped text 2026-2-7T3:4:5 is accepted. -/
theorem claim_C4 :
    DateTime.parse ("2026-02-07 10:30:15") = DateTime.epochDefault ∧
    DateTime.parse ("2026-02-07T10:30:15") = DateTime.mk 2026 2 7 10 30 15 0 ∧
    DateTime.parse ("2026-2-7T3:4:5") = DateTime.mk 2026 2 7 3 4 5 0 := by
  exact ⟨by decide, by decide, by decide⟩

/-- The mathematical (non-wrapped) nanosecond count of a `DateTime`, used
to state when `to_timestamp_utc` does not overflow `int64_t`. -/
def rawTicks (x : DateTime) : Int :=
  days_from_civil x.year x.month x.day * 86400000000000 +
    x.hour * 3600000000000 + x.minute * 60000000000 +
    x.second * 1000000000 + x.nanosecond

/-- Field-level roundtrip behind C8: on an in-range valid `DateTime`,
`from_timestamp_utc` after `to_timestamp_utc` restores the stored fields
verbatim. -/
theorem from_to_id (x : DateTime) (hy1 : -32767 ≤ x.year) (hy2 : x.year ≤ 32767)
    (hv : valid_ymd_spec x.year x.month x.day)
    (hh1 : 0 ≤ x.hour) (hh2 : x.hour ≤ 23)
    (hm1 : 0 ≤ x.minute) (hm2 : x.minute ≤ 59)
    (hs1 : 0 ≤ x.second) (hs2 : x.second ≤ 59)
    (hn1 : 0 ≤ x.nanosecond) (hn2 : x.nanosecond ≤ 999999999)
    (hf1 : -9223372036854775808 ≤ rawTicks x)
    (hf2 : rawTicks x ≤ 9223372036854775807) :
    DateTime.from_timestamp_utc x.to_timestamp_utc = x := by
  obtain ⟨y, mo, d, h, mi, s, n⟩ := x
  unfold rawTicks at hf1 hf2
  dsimp only at *
  obtain ⟨⟨hmo1, hmo12⟩, hd1, hdimv⟩ := hv
  have hd31 : d ≤ 31 := le_trans hdimv (by unfold days_in_month; split_ifs <;> omega)
  unfold DateTime.to_timestamp_utc
  dsimp only
  rw [if_pos ((ymd_ok_wraps_iff y mo d (by omega) hy2 (by omega) (by omega)
    (by omega) (by omega)).mpr ⟨⟨hmo1, hmo12⟩, hd1, hdimv⟩)]
  rw [wrap16_id y (by omega) hy2, wrap8u_id mo (by omega) (by omega),
    wrap8u_id d (by omega) (by omega)]
  rw [wrap64_id _ hf1 hf2]
  unfold DateTime.from_timestamp_utc
  dsimp only
  have hday : (days_from_civil y mo d * 86400000000000 + h * 3600000000000 +
      mi * 60000000000 + s * 1000000000 + n) / 86400000000000 =
      days_from_civil y mo d := by
    omega
  have hrem : (days_from_civil y mo d * 86400000000000 + h * 3600000000000 +
      mi * 60000000000 + s * 1000000000 + n) % 86400000000000 =
      h * 3600000000000 + mi * 60000000000 + s * 1000000000 + n := by
    omega
  rw [hday, hrem, civil_roundtrip_fwd y mo d ⟨⟨hmo1, hmo12⟩, hd1, hdimv⟩]
  dsimp only
  simp only [DateTime.mk.injEq]
  refine ⟨trivial, trivial, trivial, by omega, by omega, by omega, by omega⟩

/-- C8 counterexample: the claim allows second 60 (the documented upper
bound), but converting second 60 to a timestamp carries into the next
minute, so the roundtrip renders 10:31:00 for stored 10:30:60 and the
strings differ. -/
theorem claim_C8_counterexample :
    ((DateTime.from_timestamp_utc
        (DateTime.mk 2026 2 7 10 30 60 0).to_timestamp_utc).to_string_utc =
      (DateTime.mk 2026 2 7 10 30 60 0).to_string_utc) ↔ False := by
  decide

/-- C8 (amended): for every `DateTime` with a chrono-representable year,
a valid calendar triple, hour in [0,23], minute in [0,59], second in
[0,59] (second 60 carries and breaks the roundtrip), nanosecond in
[0,999999999], and a derived timestamp that fits `int64_t`, converting to a
timestamp and back yields the same `to_string_utc` rendering. -/
theorem claim_C8 (x : DateTime) (hy1 : -32767 ≤ x.year) (hy2 : x.year ≤ 32767)
    (hv : valid_ymd_spec x.year x.month x.day)
    (hh1 : 0 ≤ x.hour) (hh2 : x.hour ≤ 23)
    (hm1 : 0 ≤ x.minute) (hm2 : x.minute ≤ 59)
    (hs1 : 0 ≤ x.second) (hs2 : x.second ≤ 59)
    (hn1 : 0 ≤ x.nanosecond) (hn2 : x.nanosecond ≤ 999999999)
    (hf1 : -9223372036854775808 ≤ rawTicks x)
    (hf2 : rawTicks x ≤ 9223372036854775807) :
    (DateTime.from_timestamp_utc x.to_timestamp_utc).to_string_utc =
      x.to_string_utc :=
  congrArg DateTime.to_string_utc
    (from_to_id x hy1 hy2 hv hh1 hh2 hm1 hm2 hs1 hs2 hn1 hn2 hf1 hf2)

theorem claim_C8_witness :
    (DateTime.from_timestamp_utc
        (DateTime.mk 2026 2 7 10 30 15 123456789).to_timestamp_utc).to_string_utc =
      (DateTime.mk 2026 2 7 10 30 15 123456789).to_string_utc :=
  claim_C8 (DateTime.mk 2026 2 7 10 30 15 123456789) (by norm_num) (by norm_num)
    (by decide) (by norm_num) (by norm_num) (by norm_num) (by norm_num)
    (by norm_num) (by norm_num) (by norm_num) (by norm_num) (by decide)
    (by decide)

/-! Decimal rendering facts used for the `Date` string roundtrip. -/

theorem char_eq_of_toNat (a b : Char) (h : a.toNat = b.toNat) : a = b := by
  apply Char.ext
  exact UInt32.toNat.inj h

theorem digitChar_toNat : ∀ k : Nat, k < 10 → (Nat.digitChar k).toNat = 48 + k := by
  decide

theorem digitChar_round (c : Char) (h1 : '0' ≤ c) (h2 : c ≤ '9') :
    Nat.digitChar (c.toNat - 48) = c := by
  have h48 : 48 ≤ c.toNat := h1
  have h57 : c.toNat ≤ 57 := h2
  obtain ⟨v, hv, hv9⟩ : ∃ v, v = c.toNat - 48 ∧ v ≤ 9 := ⟨c.toNat - 48, rfl, by omega⟩
  rw [← hv]
  interval_cases v <;>
    (apply char_eq_of_toNat; rw [digitChar_toNat _ (by norm_num)]; omega)

theorem natDigitsAux_fuel : ∀ fuel n : Nat, n < fuel →
    natDigitsAux fuel n = natDecimal n := by
  intro fuel
  induction fuel using Nat.strong_induction_on with
  | _ fuel ih =>
    match fuel with
    | 0 => intro n h; omega
    | f + 1 =>
      intro n h
      by_cases h10 : n < 10
      · simp [natDigitsAux, natDecimal, h10]
      · have e1 : natDigitsAux (f + 1) n = natDigitsAux f (n / 10) ++
            [Nat.digitChar (n % 10)] := by
          simp [natDigitsAux, h10]
        have e2 : natDecimal n = natDigitsAux n (n / 10) ++
            [Nat.digitChar (n % 10)] := by
          unfold natDecimal
          simp [natDigitsAux, h10]
        rw [e1, e2, ih f (by omega) (n / 10) (by omega),
          ih n (by omega) (n / 10) (by omega)]

theorem natDecimal_small (n : Nat) (h : n < 10) :
    natDecimal n = [Nat.digitChar n] := by
  simp [natDecimal, natDigitsAux, h]

theorem natDecimal_step (n : Nat) (h : 10 ≤ n) :
    natDecimal n = natDecimal (n / 10) ++ [Nat.digitChar (n % 10)] := by
  conv_lhs => unfold natDecimal
  rw [show natDigitsAux (n + 1) n = natDigitsAux n (n / 10) ++
      [Nat.digitChar (n % 10)] by simp [natDigitsAux]; omega]
  rw [natDigitsAux_fuel n (n / 10) (by omega)]

theorem padNum2_digits (a b : Nat) (ha : a < 10) (hb : b < 10) :
    padNum 2 ((10 * a + b : Nat) : Int) =
      [Nat.digitChar a, Nat.digitChar b] := by
  have hnn : ¬ ((10 * a + b : Nat) : Int) < 0 := by omega
  unfold padNum intDecimal
  rw [if_neg hnn]
  rw [show ((10 * a + b : Nat) : Int).toNat = 10 * a + b by omega]
  by_cases ha0 : a = 0
  · subst ha0
    rw [show (10 * 0 + b : Nat) = b by omega, natDecimal_small b (by omega)]
    simp [show Nat.digitChar 0 = '0' from rfl]
  · rw [natDecimal_step (10 * a + b) (by omega),
      show (10 * a + b) / 10 = a by omega, show (10 * a + b) % 10 = b by omega,
      natDecimal_small a ha]
    simp

theorem padNum4_digits (a b c d : Nat) (ha : a < 10) (hb : b < 10)
    (hc : c < 10) (hd : d < 10) :
    padNum 4 ((1000 * a + 100 * b + 10 * c + d : Nat) : Int) =
      [Nat.digitChar a, Nat.digitChar b, Nat.digitChar c, Nat.digitChar d] := by
  have hnn : ¬ ((1000 * a + 100 * b + 10 * c + d : Nat) : Int) < 0 := by omega
  unfold padNum intDecimal
  rw [if_neg hnn]
  rw [show ((1000 * a + 100 * b + 10 * c + d : Nat) : Int).toNat =
    1000 * a + 100 * b + 10 * c + d by omega]
  by_cases ha0 : a = 0
  · subst ha0
    by_cases hb0 : b = 0
    · subst hb0
      by_cases hc0 : c = 0
      · subst hc0
        rw [show (1000 * 0 + 100 * 0 + 10 * 0 + d : Nat) = d by omega,
          natDecimal_small d (by omega)]
        simp [show Nat.digitChar 0 = '0' from rfl, List.replicate]
      · rw [show (1000 * 0 + 100 * 0 + 10 * c + d : Nat) = 10 * c + d by omega,
          natDecimal_step (10 * c + d) (by omega),
          show (10 * c + d) / 10 = c by omega,
          show (10 * c + d) % 10 = d by omega, natDecimal_small c hc]
        simp [show Nat.digitChar 0 = '0' from rfl, List.replicate]
    · rw [show (1000 * 0 + 100 * b + 10 * c + d : Nat) =
        100 * b + 10 * c + d by omega,
        natDecimal_step (100 * b + 10 * c + d) (by omega),
        show (100 * b + 10 * c + d) / 10 = 10 * b + c by omega,
        show (100 * b + 10 * c + d) % 10 = d by omega,
        natDecimal_step (10 * b + c) (by omega),
        show (10 * b + c) / 10 = b by omega,
        show (10 * b + c) % 10 = c by omega, natDecimal_small b hb]
      simp [show Nat.digitChar 0 = '0' from rfl, List.replicate]
  · rw [natDecimal_step (1000 * a + 100 * b + 10 * c + d) (by omega),
      show (1000 * a + 100 * b + 10 * c + d) / 10 =
        100 * a + 10 * b + c by omega,
      show (1000 * a + 100 * b + 10 * c + d) % 10 = d by omega,
      natDecimal_step (100 * a + 10 * b + c) (by omega),
      show (100 * a + 10 * b + c) / 10 = 10 * a + b by omega,
      show (100 * a + 10 * b + c) % 10 = c by omega,
      natDecimal_step (10 * a + b) (by omega),
      show (10 * a + b) / 10 = a by omega,
      show (10 * a + b) % 10 = b by omega, natDecimal_small a ha]
    simp

theorem cDigit_nonneg_iff (c : Char) : ¬ cDigit c < 0 ↔ ('0' ≤ c ∧ c ≤ '9') := by
  unfold cDigit
  split
  · next hcond =>
    have h48 : 48 ≤ c.toNat := hcond.1
    constructor
    · intro _; exact hcond
    · intro _; omega
  · next hcond =>
    constructor
    · intro hlt; exact absurd (show (-1 : Int) < 0 by norm_num) hlt
    · intro hc; exact absurd hc hcond

theorem cDigit_eq (c : Char) (h1 : '0' ≤ c) (h2 : c ≤ '9') :
    cDigit c = (c.toNat : Int) - 48 := by
  unfold cDigit
  rw [if_pos ⟨h1, h2⟩]

theorem list_len10 (cs : List Char) (hlen : cs.length = 10) :
    ∃ a b c d e f g h1 i j, cs = [a, b, c, d, e, f, g, h1, i, j] := by
  rcases cs with _ | ⟨a, cs⟩
  · simp only [List.length_nil] at hlen; omega
  rcases cs with _ | ⟨b, cs⟩
  · simp only [List.length_cons, List.length_nil] at hlen; omega
  rcases cs with _ | ⟨c, cs⟩
  · simp only [List.length_cons, List.length_nil] at hlen; omega
  rcases cs with _ | ⟨d, cs⟩
  · simp only [List.length_cons, List.length_nil] at hlen; omega
  rcases cs with _ | ⟨e, cs⟩
  · simp only [List.length_cons, List.length_nil] at hlen; omega
  rcases cs with _ | ⟨f, cs⟩
  · simp only [List.length_cons, List.length_nil] at hlen; omega
  rcases cs with _ | ⟨g, cs⟩
  · simp only [List.length_cons, List.length_nil] at hlen; omega
  rcases cs with _ | ⟨h1, cs⟩
  · simp only [List.length_cons, List.length_nil] at hlen; omega
  rcases cs with _ | ⟨i, cs⟩
  · simp only [List.length_cons, List.length_nil] at hlen; omega
  rcases cs with _ | ⟨j, cs⟩
  · simp only [List.length_cons, List.length_nil] at hlen; omega
  rcases cs with _ | ⟨k, cs⟩
  · exact ⟨a, b, c, d, e, f, g, h1, i, j, rfl⟩
  · simp only [List.length_cons, List.length_nil] at hlen; omega

/-- Definitional evaluation of `parse_ymd` on an explicit ten-character
string. -/
theorem parse_ymd_chars (c0 c1 c2 c3 c4 c5 c6 c7 c8 c9 : Char) :
    parse_ymd ⟨[c0, c1, c2, c3, c4, c5, c6, c7, c8, c9]⟩ 0 0 0 =
      (if c4 ≠ '-' ∨ c7 ≠ '-' then (false, 0, 0, 0)
       else if cDigit c0 < 0 ∨ cDigit c1 < 0 ∨ cDigit c2 < 0 ∨ cDigit c3 < 0 then
         (false, 0, 0, 0)
       else if cDigit c5 < 0 ∨ cDigit c6 < 0 then (false, 0, 0, 0)
       else if cDigit c8 < 0 ∨ cDigit c9 < 0 then (false, 0, 0, 0)
       else (true,
        ((cDigit c0 * 10 + cDigit c1) * 10 + cDigit c2) * 10 + cDigit c3,
        cDigit c5 * 10 + cDigit c6,
        cDigit c8 * 10 + cDigit c9)) := rfl

/-- C9: every string accepted by `parse_ymd` renders back to itself through
`Date::parse` then `Date::to_string` (the fields are stored unvalidated and
printed verbatim with zero padding); in particular the calendar-invalid
2026-02-31 is stored as such, and 2026-02-07 roundtrips. -/
theorem claim_C9 :
    (∀ s : String, (parse_ymd s 0 0 0).1 = true →
      (Date.parse s).to_string = s) ∧
    Date.parse ("2026-02-31") = ⟨2026, 2, 31⟩ ∧
    (Date.parse ("2026-02-07")).to_string = ("2026-02-07") := by
  refine ⟨fun s hacc => ?_, by decide, by decide⟩
  have hlen : s.data.length = 10 := by
    by_contra hne
    unfold parse_ymd at hacc
    rw [if_pos hne] at hacc
    simp at hacc
  obtain ⟨c0, c1, c2, c3, c4, c5, c6, c7, c8, c9, hcs⟩ := list_len10 s.data hlen
  have hs : s = ⟨[c0, c1, c2, c3, c4, c5, c6, c7, c8, c9]⟩ := by
    rw [← hcs]
  rw [hs] at hacc ⊢
  rw [parse_ymd_chars] at hacc
  split_ifs at hacc with hB hC hD hE
  push_neg at hB
  obtain ⟨hc4, hc7⟩ := hB
  have h0 := (cDigit_nonneg_iff c0).mp (by tauto)
  have h1 := (cDigit_nonneg_iff c1).mp (by tauto)
  have h2 := (cDigit_nonneg_iff c2).mp (by tauto)
  have h3 := (cDigit_nonneg_iff c3).mp (by tauto)
  have h5 := (cDigit_nonneg_iff c5).mp (by tauto)
  have h6 := (cDigit_nonneg_iff c6).mp (by tauto)
  have h8 := (cDigit_nonneg_iff c8).mp (by tauto)
  have h9 := (cDigit_nonneg_iff c9).mp (by tauto)
  unfold Date.parse
  rw [parse_ymd_chars]
  have hB2 : ¬(c4 ≠ '-' ∨ c7 ≠ '-') := by
    rw [not_or]
    exact ⟨by simp [hc4], by simp [hc7]⟩
  rw [if_neg hB2, if_neg hC, if_neg hD, if_neg hE]
  change (Date.mk
    (((cDigit c0 * 10 + cDigit c1) * 10 + cDigit c2) * 10 + cDigit c3)
    (cDigit c5 * 10 + cDigit c6) (cDigit c8 * 10 + cDigit c9)).to_string = _
  unfold Date.to_string
  dsimp only
  have e48 : ∀ cc : Char, '0' ≤ cc → 48 ≤ cc.toNat := fun cc hcc => hcc
  have e57 : ∀ cc : Char, cc ≤ '9' → cc.toNat ≤ 57 := fun cc hcc => hcc
  have hy : ((cDigit c0 * 10 + cDigit c1) * 10 + cDigit c2) * 10 + cDigit c3 =
      ((1000 * (c0.toNat - 48) + 100 * (c1.toNat - 48) + 10 * (c2.toNat - 48) +
        (c3.toNat - 48) : Nat) : Int) := by
    rw [cDigit_eq c0 h0.1 h0.2, cDigit_eq c1 h1.1 h1.2, cDigit_eq c2 h2.1 h2.2,
      cDigit_eq c3 h3.1 h3.2]
    have := e48 c0 h0.1
    have := e48 c1 h1.1
    have := e48 c2 h2.1
    have := e48 c3 h3.1
    omega
  have hmo : cDigit c5 * 10 + cDigit c6 =
      ((10 * (c5.toNat - 48) + (c6.toNat - 48) : Nat) : Int) := by
    rw [cDigit_eq c5 h5.1 h5.2, cDigit_eq c6 h6.1 h6.2]
    have := e48 c5 h5.1
    have := e48 c6 h6.1
    omega
  have hdv : cDigit c8 * 10 + cDigit c9 =
      ((10 * (c8.toNat - 48) + (c9.toNat - 48) : Nat) : Int) := by
    rw [cDigit_eq c8 h8.1 h8.2, cDigit_eq c9 h9.1 h9.2]
    have := e48 c8 h8.1
    have := e48 c9 h9.1
    omega
  rw [hy, hmo, hdv]
  rw [padNum4_digits (c0.toNat - 48) (c1.toNat - 48) (c2.toNat - 48)
      (c3.toNat - 48) (by have := e57 c0 h0.2; omega)
      (by have := e57 c1 h1.2; omega)
      (by have := e57 c2 h2.2; omega) (by have := e57 c3 h3.2; omega),
    padNum2_digits (c5.toNat - 48) (c6.toNat - 48)
      (by have := e57 c5 h5.2; omega) (by have := e57 c6 h6.2; omega),
    padNum2_digits (c8.toNat - 48) (c9.toNat - 48)
      (by have := e57 c8 h8.2; omega) (by have := e57 c9 h9.2; omega)]
  rw [digitChar_round c0 h0.1 h0.2, digitChar_round c1 h1.1 h1.2,
    digitChar_round c2 h2.1 h2.2, digitChar_round c3 h3.1 h3.2,
    digitChar_round c5 h5.1 h5.2, digitChar_round c6 h6.1 h6.2,
    digitChar_round c8 h8.1 h8.2, digitChar_round c9 h9.1 h9.2]
  rw [hc4, hc7]
  rfl

theorem claim_C9_witness :
    (Date.parse ("2026-02-07")).to_string = ("2026-02-07") :=
  claim_C9.1 ("2026-02-07") (by decide)

/-- Lexical shape demanded by the specification for `parse_ymd`: exactly
ten characters, literal hyphens at positions 4 and 7, ASCII digits at every
other position. -/
def ymdShape (cs : List Char) : Prop :=
  cs.length = 10 ∧ cs.getD 4 ' ' = '-' ∧ cs.getD 7 ' ' = '-' ∧
  ∀ i ∈ ([0, 1, 2, 3, 5, 6, 8, 9] : List Nat),
    '0' ≤ cs.getD i ' ' ∧ cs.getD i ' ' ≤ '9'

instance (cs : List Char) : Decidable (ymdShape cs) := by
  unfold ymdShape; infer_instance

/-- C5: `parse_ymd` succeeds exactly on ten-character strings shaped
DDDD-DD-DD (purely lexical, no range check of month or day), and on any
mismatch it leaves the zero-initialized out-parameters untouched, returning
failure with all-zero fields. -/
theorem claim_C5 : ∀ s : String,
    ((parse_ymd s 0 0 0).1 = true ↔ ymdShape s.data) ∧
    ((parse_ymd s 0 0 0).1 = false → parse_ymd s 0 0 0 = (false, 0, 0, 0)) := by
  intro s
  by_cases hlen : s.data.length = 10
  · obtain ⟨c0, c1, c2, c3, c4, c5, c6, c7, c8, c9, hcs⟩ := list_len10 s.data hlen
    have hs : s = ⟨[c0, c1, c2, c3, c4, c5, c6, c7, c8, c9]⟩ := by
      rw [← hcs]
    subst hs
    simp only at hcs
    rw [parse_ymd_chars]
    constructor
    · constructor
      · intro hacc
        split_ifs at hacc with hB hC hD hE
        push_neg at hB
        refine ⟨rfl, hB.1, hB.2, ?_⟩
        intro i hi
        fin_cases hi
        · exact (cDigit_nonneg_iff c0).mp (by tauto)
        · exact (cDigit_nonneg_iff c1).mp (by tauto)
        · exact (cDigit_nonneg_iff c2).mp (by tauto)
        · exact (cDigit_nonneg_iff c3).mp (by tauto)
        · exact (cDigit_nonneg_iff c5).mp (by tauto)
        · exact (cDigit_nonneg_iff c6).mp (by tauto)
        · exact (cDigit_nonneg_iff c8).mp (by tauto)
        · exact (cDigit_nonneg_iff c9).mp (by tauto)
      · intro hsh
        obtain ⟨hl10, h4, h7, hdig⟩ := hsh
        have g0 := hdig 0 (by norm_num)
        have g1 := hdig 1 (by norm_num)
        have g2 := hdig 2 (by norm_num)
        have g3 := hdig 3 (by norm_num)
        have g5 := hdig 5 (by norm_num)
        have g6 := hdig 6 (by norm_num)
        have g8 := hdig 8 (by norm_num)
        have g9 := hdig 9 (by norm_num)
        rw [if_neg (by
            rw [not_or]
            exact ⟨by simp only [not_not]; exact h4, by simp only [not_not]; exact h7⟩),
          if_neg (by
            simp only [not_or]
            exact ⟨(cDigit_nonneg_iff c0).mpr g0, (cDigit_nonneg_iff c1).mpr g1,
              (cDigit_nonneg_iff c2).mpr g2, (cDigit_nonneg_iff c3).mpr g3⟩),
          if_neg (by
            simp only [not_or]
            exact ⟨(cDigit_nonneg_iff c5).mpr g5, (cDigit_nonneg_iff c6).mpr g6⟩),
          if_neg (by
            simp only [not_or]
            exact ⟨(cDigit_nonneg_iff c8).mpr g8, (cDigit_nonneg_iff c9).mpr g9⟩)]
    · intro hfail
      split_ifs at hfail ⊢ <;> rfl
  · constructor
    · constructor
      · intro hacc
        unfold parse_ymd at hacc
        rw [if_pos hlen] at hacc
        simp at hacc
      · intro hsh
        exact absurd hsh.1 hlen
    · intro _
      unfold parse_ymd
      rw [if_pos hlen]

theorem claim_C5_witness :
    ((parse_ymd ("2026-02-31") 0 0 0).1 = true ↔ ymdShape ("2026-02-31").data) ∧
    ((parse_ymd ("2026-02-31") 0 0 0).1 = false →
      parse_ymd ("2026-02-31") 0 0 0 = (false, 0, 0, 0)) :=
  claim_C5 ("2026-02-31")

/-! Facts about the fractional-seconds machinery of `DateTime::parse`. -/

theorem digitsVal_foldl (t : List Char) : ∀ a : Nat,
    t.foldl (fun x c => x * 10 + (c.toNat - 48)) a =
      a * 10 ^ t.length + digitsVal t := by
  induction t with
  | nil => intro a; simp [digitsVal]
  | cons c t ih =>
    intro a
    simp only [List.foldl_cons, List.length_cons]
    rw [ih (a * 10 + (c.toNat - 48))]
    have hv : digitsVal (c :: t) =
        (0 * 10 + (c.toNat - 48)) * 10 ^ t.length + digitsVal t :=
      ih (0 * 10 + (c.toNat - 48))
    rw [hv]
    ring

theorem digitsVal_cons (c : Char) (t : List Char) :
    digitsVal (c :: t) = (c.toNat - 48) * 10 ^ t.length + digitsVal t := by
  have hv : digitsVal (c :: t) =
      (0 * 10 + (c.toNat - 48)) * 10 ^ t.length + digitsVal t :=
    digitsVal_foldl t (0 * 10 + (c.toNat - 48))
  rw [hv]
  ring_nf

theorem isDigit_bounds (c : Char) (h : c.isDigit = true) :
    48 ≤ c.toNat ∧ c.toNat ≤ 57 := by
  revert h
  unfold Char.isDigit
  intro h
  rw [Bool.and_eq_true] at h
  obtain ⟨h1, h2⟩ := h
  rw [decide_eq_true_eq] at h1 h2
  exact ⟨h1, h2⟩

theorem digitsVal_lt (ds : List Char) (h : ∀ c ∈ ds, c.isDigit = true) :
    digitsVal ds < 10 ^ ds.length := by
  induction ds with
  | nil => simp [digitsVal]
  | cons c t ih =>
    rw [digitsVal_cons, List.length_cons, pow_succ]
    have hc := isDigit_bounds c (h c (by simp))
    have ht := ih (fun x hx => h x (by simp [hx]))
    have h9 : c.toNat - 48 ≤ 9 := by omega
    have h10 : (c.toNat - 48) * 10 ^ t.length ≤ 9 * 10 ^ t.length :=
      Nat.mul_le_mul_right (10 ^ t.length) h9
    omega

theorem fracLoop_digits : ∀ (ds : List Char) (frac : Int) (n : Nat),
    (∀ c ∈ ds, c.isDigit = true) →
    fracLoop (ds ++ ['Z']) frac n =
      (frac * 10 ^ (min (9 - n) ds.length) +
        (digitsVal (ds.take (9 - n)) : Int), n + ds.length, ['Z']) := by
  intro ds
  induction ds with
  | nil =>
    intro frac n h
    simp [fracLoop, digitsVal]
  | cons c t ih =>
    intro frac n h
    have hc : c.isDigit = true := h c (by simp)
    have ht : ∀ x ∈ t, x.isDigit = true := fun x hx => h x (by simp [hx])
    rw [List.cons_append]
    unfold fracLoop
    rw [if_pos hc]
    by_cases hn : n < 9
    · rw [if_pos hn, ih (frac * 10 + ((c.toNat : Int) - 48)) (n + 1) ht]
      have he2 : min (9 - n) (c :: t).length = min (9 - (n + 1)) t.length + 1 := by
        simp only [List.length_cons]
        omega
      rw [he2]
      have he3 : (c :: t).take (9 - n) = c :: t.take (9 - (n + 1)) := by
        rw [show 9 - n = (9 - (n + 1)) + 1 by omega, List.take_succ_cons]
      rw [he3, digitsVal_cons]
      have he4 : (t.take (9 - (n + 1))).length = min (9 - (n + 1)) t.length := by
        simp [List.length_take]
      rw [he4]
      have hcb := isDigit_bounds c hc
      simp only [Prod.mk.injEq, List.length_cons]
      refine ⟨?_, by omega, by trivial⟩
      push_cast
      rw [pow_succ]
      have hcast : ((c.toNat - 48 : Nat) : Int) = (c.toNat : Int) - 48 := by
        omega
      rw [hcast]
      ring
    · rw [if_neg hn, ih frac (n + 1) ht]
      have he1 : 9 - n = 0 := by omega
      have he2 : 9 - (n + 1) = 0 := by omega
      rw [he1, he2]
      simp only [Nat.zero_min, List.take_zero, List.length_cons]
      simp [digitsVal]
      omega

theorem fracPad_eval (frac : Int) (n : Nat) (h : 1 ≤ n) :
    fracPad frac n = frac * 10 ^ (9 - n) := by
  rcases Nat.lt_or_ge n 9 with h9 | h9
  · interval_cases n <;> simp [fracPad, fracPadGo] <;> ring
  · have he : 9 - n = 0 := by omega
    rw [he, pow_zero, mul_one]
    show fracPadGo 9 frac n = frac
    unfold fracPadGo
    rw [if_neg (by omega)]

/-- Definitional evaluation of `DateTime::parse` on the fixed stem
2026-02-07T10:30:15. followed by an arbitrary tail: the eleven extractions,
the punctuation test and the field range checks only inspect the stem, so
only the fraction processing of the tail remains. -/
theorem parse_stem (tail : List Char) :
    DateTime.parse ⟨("2026-02-07T10:30:15.").data ++ tail⟩ =
      (if fracPad (fracLoop tail 0 0).1 (fracLoop tail 0 0).2.1 < 0 ∨
          999999999 < fracPad (fracLoop tail 0 0).1 (fracLoop tail 0 0).2.1 then
        DateTime.epochDefault
      else
        ⟨2026, 2, 7, 10, 30, 15,
          fracPad (fracLoop tail 0 0).1 (fracLoop tail 0 0).2.1⟩) := rfl

/-- C6: for inputs of `DateTime::parse` carrying a fractional suffix of one
or more digits, only the first nine digits reach the stored nanosecond
value (further digits are consumed but discarded) and fewer than nine are
right-padded with zeros; in particular .5 stores 500000000 and .123456789
stores 123456789. -/
theorem claim_C6 :
    (∀ ds : List Char, ds ≠ [] → (∀ c ∈ ds, c.isDigit = true) →
      DateTime.parse (("2026-02-07T10:30:15.") ++ ⟨ds⟩ ++ ("Z")) =
        DateTime.mk 2026 2 7 10 30 15
          ((digitsVal (ds.take 9) : Int) * 10 ^ (9 - ds.length))) ∧
    (DateTime.parse ("2026-02-07T10:30:15.5Z")).nanosecond = 500000000 ∧
    (DateTime.parse ("2026-02-07T10:30:15.123456789Z")).nanosecond =
      123456789 := by
  refine ⟨fun ds hne hdig => ?_, by decide, by decide⟩
  have hdata : ("2026-02-07T10:30:15.") ++ (⟨ds⟩ : String) ++ ("Z") =
      (⟨("2026-02-07T10:30:15.").data ++ (ds ++ ['Z'])⟩ : String) := by
    apply congrArg String.mk
    rfl
  rw [hdata, parse_stem]
  rw [fracLoop_digits ds 0 0 hdig]
  dsimp only
  have hlen1 : 1 ≤ ds.length := by
    cases ds
    · exact absurd rfl hne
    · simp
  rw [show (0 : Nat) + ds.length = ds.length by omega]
  rw [fracPad_eval _ ds.length hlen1]
  rw [show min (9 - 0) ds.length = min 9 ds.length by norm_num]
  rw [show (9 : Nat) - 0 = 9 by norm_num]
  have hvlt : digitsVal (ds.take 9) < 10 ^ (ds.take 9).length :=
    digitsVal_lt (ds.take 9) (fun c hc => hdig c (List.take_subset 9 ds hc))
  have hlen9 : (ds.take 9).length = min 9 ds.length := by
    simp [List.length_take]
  have hfexp : 10 ^ (ds.take 9).length * 10 ^ (9 - ds.length) ≤ 10 ^ 9 := by
    rw [hlen9, ← pow_add]
    apply Nat.pow_le_pow_right (by norm_num)
    omega
  have hfrac_nat : digitsVal (ds.take 9) * 10 ^ (9 - ds.length) < 10 ^ 9 := by
    calc digitsVal (ds.take 9) * 10 ^ (9 - ds.length)
        < 10 ^ (ds.take 9).length * 10 ^ (9 - ds.length) := by
          exact mul_lt_mul_of_pos_right hvlt (pow_pos (by norm_num) _)
      _ ≤ 10 ^ 9 := hfexp
  have hfrac_bounds :
      0 ≤ (digitsVal (ds.take 9) : Int) * 10 ^ (9 - ds.length) ∧
      (digitsVal (ds.take 9) : Int) * 10 ^ (9 - ds.length) ≤ 999999999 := by
    have hcast : (digitsVal (ds.take 9) : Int) * 10 ^ (9 - ds.length) =
        ((digitsVal (ds.take 9) * 10 ^ (9 - ds.length) : Nat) : Int) := by
      push_cast
      ring
    rw [hcast]
    constructor
    · positivity
    · have : digitsVal (ds.take 9) * 10 ^ (9 - ds.length) ≤ 999999999 := by
        have h9 : (10 : Nat) ^ 9 = 1000000000 := by norm_num
        omega
      exact_mod_cast this
  rw [show ((0 : Int) * 10 ^ min 9 ds.length + (digitsVal (ds.take 9) : Int)) =
    ((digitsVal (ds.take 9) : Int)) by ring]
  have hcond2 : ¬((digitsVal (ds.take 9) : Int) * 10 ^ (9 - ds.length) < 0 ∨
      (999999999 : Int) <
        (digitsVal (ds.take 9) : Int) * 10 ^ (9 - ds.length)) := by
    push_neg
    exact hfrac_bounds
  exact if_neg hcond2

theorem claim_C6_witness :
    DateTime.parse (("2026-02-07T10:30:15.") ++ (⟨['5']⟩ : String) ++ ("Z")) =
      DateTime.mk 2026 2 7 10 30 15
        ((digitsVal (['5'].take 9) : Int) * 10 ^ (9 - ['5'].length)) :=
  claim_C6.1 ['5'] (by decide) (by decide)

end VixTime
